import Mathlib

/-!
Verification development for the fingerprint OPC UA service-dispatch repository.

Strings manipulated by the Python code are modelled as `List Char`; Python's
ASCII-range `str.isupper`, `str.islower`, `str.lower`, `str.upper` coincide with
Lean's `Char.isUpper`, `Char.isLower`, `Char.toLower`, `Char.toUpper` on the
inputs the claims quantify over (word-boundary-capitalized ASCII names).
-/

/-! ## Name transform (fp_opcua_server.py lines 36-43) -/

/-- Body of the comprehension in `camel_to_snake` (fp_opcua_server.py line 38):
each uppercase character becomes an underscore followed by its lowercase form,
every other character is kept. -/
def camelToSnakeAux : List Char → List Char
  | [] => []
  | c :: cs => (if c.isUpper then ['_', c.toLower] else [c]) ++ camelToSnakeAux cs

/-- Python's `str.lstrip` with argument `_` : drop every leading underscore. -/
def lstripUnderscores : List Char → List Char
  | [] => []
  | c :: cs => if c = '_' then lstripUnderscores cs else c :: cs

/-- `camel_to_snake` from fp_opcua_server.py lines 36-38: converts CamelCase to
snake_case by prefixing each uppercase character with an underscore, lowering
it, and stripping the leading underscores. -/
def camel_to_snake (s : List Char) : List Char :=
  lstripUnderscores (camelToSnakeAux s)

/-- Python's `str.split` with separator `_` : splitting on every underscore,
keeping empty segments, with `[""]` for the empty string. -/
def pySplitUnderscore : List Char → List (List Char)
  | [] => [[]]
  | c :: cs =>
    if c = '_' then [] :: pySplitUnderscore cs
    else
      match pySplitUnderscore cs with
      | [] => [[c]]
      | w :: ws => (c :: w) :: ws

/-- Python's `str.capitalize`: first character uppercased, the rest lowercased. -/
def pyCapitalize : List Char → List Char
  | [] => []
  | c :: cs => c.toUpper :: cs.map Char.toLower

/-- `snake_to_camel` from fp_opcua_server.py lines 41-43: split on underscores,
capitalize each part, and join. -/
def snake_to_camel (s : List Char) : List Char :=
  ((pySplitUnderscore s).map pyCapitalize).flatten

/-- A word of a word-boundary-capitalized name: one uppercase character
followed by lowercase characters. -/
def IsCamelWord (w : List Char) : Prop :=
  ∃ u ls, w = u :: ls ∧ u.isUpper = true ∧ ∀ c ∈ ls, c.isLower = true

/-- Lowercase image of a word, as produced by `camel_to_snake` on a word. -/
def lowerWord (w : List Char) : List Char :=
  w.map Char.toLower

/-! ### Character-level helper lemmas (ASCII case conversion) -/

theorem char_toNat_ofNat (n : Nat) (h : n < 0xd800) : (Char.ofNat n).toNat = n := by
  rw [Char.ofNat, dif_pos (Or.inl h)]
  simp [Char.ofNatAux, Char.toNat, UInt32.toNat, BitVec.toNat_ofNatLt]

theorem char_isUpper_iff {c : Char} : c.isUpper = true ↔ 65 ≤ c.toNat ∧ c.toNat ≤ 90 := by
  simp [Char.isUpper, UInt32.le_def, BitVec.le_def, Char.toNat, UInt32.toNat]

theorem char_isLower_iff {c : Char} : c.isLower = true ↔ 97 ≤ c.toNat ∧ c.toNat ≤ 122 := by
  simp [Char.isLower, UInt32.le_def, BitVec.le_def, Char.toNat, UInt32.toNat]

theorem char_toLower_toNat {c : Char} (h : c.isUpper = true) :
    (c.toLower).toNat = c.toNat + 32 := by
  obtain ⟨h1, h2⟩ := char_isUpper_iff.mp h
  rw [Char.toLower, if_pos ⟨h1, h2⟩]
  exact char_toNat_ofNat _ (by omega)

theorem char_toLower_isLower {c : Char} (h : c.isUpper = true) :
    (c.toLower).isLower = true := by
  obtain ⟨h1, h2⟩ := char_isUpper_iff.mp h
  rw [char_isLower_iff, char_toLower_toNat h]
  omega

theorem char_toUpper_toLower {c : Char} (h : c.isUpper = true) :
    (c.toLower).toUpper = c := by
  obtain ⟨h1, h2⟩ := char_isUpper_iff.mp h
  have hl := char_toLower_toNat h
  rw [Char.toUpper, if_pos (by omega)]
  rw [hl, Nat.add_sub_cancel]
  exact Char.ofNat_toNat c

theorem char_toLower_of_isLower {c : Char} (h : c.isLower = true) : c.toLower = c := by
  obtain ⟨h1, h2⟩ := char_isLower_iff.mp h
  rw [Char.toLower, if_neg (by omega)]

theorem char_not_isUpper_of_isLower {c : Char} (h : c.isLower = true) : c.isUpper = false := by
  obtain ⟨h1, h2⟩ := char_isLower_iff.mp h
  rw [Bool.eq_false_iff]
  intro hu
  obtain ⟨h3, h4⟩ := char_isUpper_iff.mp hu
  omega

theorem char_isLower_ne_underscore {c : Char} (h : c.isLower = true) : c ≠ '_' := by
  obtain ⟨h1, h2⟩ := char_isLower_iff.mp h
  intro he
  subst he
  simp [Char.toNat, UInt32.toNat] at h1 h2

/-! ### List-level helper lemmas for the roundtrip -/

theorem camelToSnakeAux_append (xs ys : List Char) :
    camelToSnakeAux (xs ++ ys) = camelToSnakeAux xs ++ camelToSnakeAux ys := by
  induction xs with
  | nil => simp [camelToSnakeAux]
  | cons c cs ih => simp [camelToSnakeAux, ih]

theorem map_toLower_of_lower (ls : List Char) (h : ∀ c ∈ ls, c.isLower = true) :
    ls.map Char.toLower = ls := by
  induction ls with
  | nil => rfl
  | cons c cs ih =>
    rw [List.map_cons, char_toLower_of_isLower (h c (by simp)),
      ih fun d hd => h d (by simp [hd])]

theorem camelToSnakeAux_of_lower (ls : List Char) (h : ∀ c ∈ ls, c.isLower = true) :
    camelToSnakeAux ls = ls := by
  induction ls with
  | nil => rfl
  | cons c cs ih =>
    have hc := char_not_isUpper_of_isLower (h c (by simp))
    rw [camelToSnakeAux, if_neg (by simp [hc]), ih fun d hd => h d (by simp [hd])]
    rfl

theorem camelToSnakeAux_word (w : List Char) (hw : IsCamelWord w) :
    camelToSnakeAux w = '_' :: lowerWord w := by
  obtain ⟨u, ls, rfl, hu, hls⟩ := hw
  have hlw : lowerWord (u :: ls) = u.toLower :: ls := by
    rw [lowerWord, List.map_cons, map_toLower_of_lower ls hls]
  rw [hlw]
  simp [camelToSnakeAux, hu, camelToSnakeAux_of_lower ls hls]

theorem lowerWord_all_lower (w : List Char) (hw : IsCamelWord w) :
    ∀ c ∈ lowerWord w, c.isLower = true := by
  obtain ⟨u, ls, rfl, hu, hls⟩ := hw
  intro c hc
  simp only [lowerWord, List.mem_map] at hc
  obtain ⟨d, hd, rfl⟩ := hc
  rcases List.mem_cons.mp hd with h | h
  · subst h; exact char_toLower_isLower hu
  · rw [char_toLower_of_isLower (hls d h)]; exact hls d h

theorem lstripUnderscores_of_lower_head (c : Char) (cs : List Char)
    (h : c.isLower = true) : lstripUnderscores (c :: cs) = c :: cs := by
  simp [lstripUnderscores, char_isLower_ne_underscore h]

/-- The snake form of a list of camel words: their lowercase images joined with
single underscores (the "word-boundary-lowercase-with-underscore form"). -/
def snakeForm : List (List Char) → List Char
  | [] => []
  | [w] => lowerWord w
  | w :: rest => lowerWord w ++ '_' :: snakeForm rest

theorem camelToSnakeAux_join (ws : List (List Char)) (hw : ∀ w ∈ ws, IsCamelWord w) :
    camelToSnakeAux ws.flatten = (ws.map fun w => '_' :: lowerWord w).flatten := by
  induction ws with
  | nil => rfl
  | cons w rest ih =>
    simp only [List.flatten_cons, camelToSnakeAux_append, List.map_cons]
    rw [camelToSnakeAux_word w (hw w (by simp)), ih fun v hv => hw v (by simp [hv])]

theorem join_cons_underscore (ws : List (List Char)) (hne : ws ≠ []) :
    (ws.map fun w => '_' :: lowerWord w).flatten = '_' :: snakeForm ws := by
  induction ws with
  | nil => exact absurd rfl hne
  | cons w rest ih =>
    cases rest with
    | nil => simp [snakeForm]
    | cons v vs =>
      have hih := ih (by simp)
      rw [List.map_cons, List.flatten_cons, hih]
      show '_' :: (lowerWord w ++ '_' :: snakeForm (v :: vs)) = '_' :: snakeForm (w :: v :: vs)
      rfl

theorem snakeForm_cons_decomp (w : List Char) (rest : List (List Char)) :
    ∃ t, snakeForm (w :: rest) = lowerWord w ++ t := by
  cases rest with
  | nil => exact ⟨[], by simp [snakeForm]⟩
  | cons v vs => exact ⟨'_' :: snakeForm (v :: vs), rfl⟩

theorem camel_to_snake_eq_snakeForm (ws : List (List Char)) (hne : ws ≠ [])
    (hw : ∀ w ∈ ws, IsCamelWord w) :
    camel_to_snake ws.flatten = snakeForm ws := by
  rw [camel_to_snake, camelToSnakeAux_join ws hw, join_cons_underscore ws hne]
  simp only [lstripUnderscores, if_pos rfl]
  cases ws with
  | nil => exact absurd rfl hne
  | cons w rest =>
    obtain ⟨t, ht⟩ := snakeForm_cons_decomp w rest
    have hlw : ∀ c ∈ lowerWord w, c.isLower = true := lowerWord_all_lower w (hw w (by simp))
    obtain ⟨u, ls, hwe, hu, hls⟩ := hw w (by simp)
    have hne2 : lowerWord w ≠ [] := by subst hwe; simp [lowerWord]
    cases hh : lowerWord w with
    | nil => exact absurd hh hne2
    | cons c cs =>
      have hcl : c.isLower = true := by apply hlw; rw [hh]; simp
      rw [ht, hh, List.cons_append]
      exact lstripUnderscores_of_lower_head c (cs ++ t) hcl

theorem pySplitUnderscore_no_underscore (w : List Char) (h : ∀ c ∈ w, c ≠ '_') :
    pySplitUnderscore w = [w] := by
  induction w with
  | nil => rfl
  | cons c cs ih =>
    have hc : c ≠ '_' := h c (by simp)
    rw [pySplitUnderscore, if_neg hc, ih fun d hd => h d (by simp [hd])]

theorem pySplitUnderscore_append (w t : List Char) (h : ∀ c ∈ w, c ≠ '_') :
    pySplitUnderscore (w ++ '_' :: t) = w :: pySplitUnderscore t := by
  induction w with
  | nil => simp [pySplitUnderscore]
  | cons c cs ih =>
    have hc : c ≠ '_' := h c (by simp)
    rw [List.cons_append, pySplitUnderscore, if_neg hc,
      ih fun d hd => h d (by simp [hd])]

theorem lowerWord_no_underscore (w : List Char) (hw : IsCamelWord w) :
    ∀ c ∈ lowerWord w, c ≠ '_' :=
  fun c hc => char_isLower_ne_underscore (lowerWord_all_lower w hw c hc)

theorem pySplitUnderscore_snakeForm (ws : List (List Char)) (hne : ws ≠ [])
    (hw : ∀ w ∈ ws, IsCamelWord w) :
    pySplitUnderscore (snakeForm ws) = ws.map lowerWord := by
  induction ws with
  | nil => exact absurd rfl hne
  | cons w rest ih =>
    cases rest with
    | nil =>
      simp only [snakeForm, List.map_cons, List.map_nil]
      exact pySplitUnderscore_no_underscore _ (lowerWord_no_underscore w (hw w (by simp)))
    | cons v vs =>
      show pySplitUnderscore (lowerWord w ++ '_' :: snakeForm (v :: vs)) = _
      rw [pySplitUnderscore_append _ _ (lowerWord_no_underscore w (hw w (by simp)))]
      rw [ih (by simp) fun x hx => hw x (by simp [hx])]
      rfl

theorem pyCapitalize_lowerWord (w : List Char) (hw : IsCamelWord w) :
    pyCapitalize (lowerWord w) = w := by
  obtain ⟨u, ls, rfl, hu, hls⟩ := hw
  have hmap : ls.map Char.toLower = ls := map_toLower_of_lower ls hls
  rw [lowerWord, List.map_cons, hmap, pyCapitalize, char_toUpper_toLower hu, hmap]

theorem map_capitalize_lower (ws : List (List Char)) (hw : ∀ w ∈ ws, IsCamelWord w) :
    (ws.map lowerWord).map pyCapitalize = ws := by
  induction ws with
  | nil => rfl
  | cons w rest ih =>
    rw [List.map_cons, List.map_cons, pyCapitalize_lowerWord w (hw w (by simp)),
      ih fun x hx => hw x (by simp [hx])]

theorem snake_to_camel_snakeForm (ws : List (List Char)) (hne : ws ≠ [])
    (hw : ∀ w ∈ ws, IsCamelWord w) :
    snake_to_camel (snakeForm ws) = ws.flatten := by
  rw [snake_to_camel, pySplitUnderscore_snakeForm ws hne hw, map_capitalize_lower ws hw]

/-- C8: the protocol-to-backend name transform `camel_to_snake` deterministically
maps every word-boundary-capitalized name (nonempty concatenation of words, each
one uppercase character followed by lowercase characters) to the
word-boundary-lowercase-with-underscore form, and `snake_to_camel` inverts it on
such names: `snake_to_camel (camel_to_snake s) = s`. -/
theorem camel_snake_roundtrip (ws : List (List Char)) (hne : ws ≠ [])
    (hw : ∀ w ∈ ws, IsCamelWord w) :
    camel_to_snake ws.flatten = snakeForm ws ∧
      snake_to_camel (camel_to_snake ws.flatten) = ws.flatten := by
  have h1 := camel_to_snake_eq_snakeForm ws hne hw
  exact ⟨h1, by rw [h1]; exact snake_to_camel_snakeForm ws hne hw⟩

/-- Witness for C8 at the concrete name "AddPart" (words "Add" and "Part"):
camel_to_snake gives "add_part" and snake_to_camel maps it back. -/
theorem camel_snake_roundtrip_witness :
    camel_to_snake (['A', 'd', 'd', 'P', 'a', 'r', 't'] : List Char)
        = ['a', 'd', 'd', '_', 'p', 'a', 'r', 't'] ∧
      snake_to_camel (camel_to_snake (['A', 'd', 'd', 'P', 'a', 'r', 't'] : List Char))
        = ['A', 'd', 'd', 'P', 'a', 'r', 't'] := by
  have h := camel_snake_roundtrip [['A', 'd', 'd'], ['P', 'a', 'r', 't']]
    (by simp)
    (by
      intro w hwi
      rcases List.mem_cons.mp hwi with h1 | h1
      · exact ⟨'A', ['d', 'd'], h1, by decide, by decide⟩
      · rcases List.mem_cons.mp h1 with h2 | h2
        · exact ⟨'P', ['a', 'r', 't'], h2, by decide, by decide⟩
        · exact absurd h2 (List.not_mem_nil w))
  have hjoin : ([['A', 'd', 'd'], ['P', 'a', 'r', 't']] : List (List Char)).flatten
      = ['A', 'd', 'd', 'P', 'a', 'r', 't'] := by decide
  have hsnake : snakeForm [['A', 'd', 'd'], ['P', 'a', 'r', 't']]
      = ['a', 'd', 'd', '_', 'p', 'a', 'r', 't'] := by decide
  rw [hjoin, hsnake] at h
  exact h

/-! ## Device status model

`RunState`, `ResultState`, `ErrorType` and `FpStatus` are imported by the
backends from `fp_tcpip_system.fp_tcp_clients.fp_tcp_interface_definitions`,
a module of this repository that is not under src/. -/

/-- Modelled from the spec: the run-state enumeration of DeviceStatus.
Members used by the backends in src/: SYSTEM_READY, ACQUIRING_IMAGE,
COMMAND_RUNNING, SYSTEM_ERROR; SYSTEM_RESET covers the spec's RESET state
entered by `FpStatus.reset`. -/
inductive RunState
  | SYSTEM_READY
  | ACQUIRING_IMAGE
  | COMMAND_RUNNING
  | SYSTEM_ERROR
  | SYSTEM_RESET
deriving DecidableEq, Repr

/-- Modelled from the spec: the result-state enumeration of DeviceStatus.
Members used by the backends in src/: RESULT_UNDEFINED, RESULT_READY. -/
inductive ResultState
  | RESULT_UNDEFINED
  | RESULT_READY
deriving DecidableEq, Repr

/-- Modelled from the spec: the error-kind enumeration of DeviceStatus.
Members used by the backends in src/: NO_ERROR, ID_DUPLICATE_FOUND,
FP_DUPLICATE_FOUND. -/
inductive ErrorType
  | NO_ERROR
  | ID_DUPLICATE_FOUND
  | FP_DUPLICATE_FOUND
deriving DecidableEq, Repr

/-- Modelled from the spec: DeviceStatus = {run_state, result_state,
error_kind, current_command}; the class `FpStatus` from the missing
fp_tcp_interface_definitions module. -/
structure FpStatus where
  run_state : RunState
  result_state : ResultState
  error_type : ErrorType
  current_command : String
deriving DecidableEq, Repr

/-- Modelled from the spec: `FpStatus.update` sets all four DeviceStatus
fields, as every call site in src/ passes all four values. -/
def FpStatus.update (_ : FpStatus) (r : RunState) (res : ResultState)
    (e : ErrorType) (cmd : String) : FpStatus :=
  ⟨r, res, e, cmd⟩

/-- Modelled from the spec: `FpStatus.reset` enters the transient RESET state
of the status state machine (spec 4.6: RESET precedes READY). -/
def FpStatus.reset (_ : FpStatus) : FpStatus :=
  ⟨RunState.SYSTEM_RESET, ResultState.RESULT_UNDEFINED, ErrorType.NO_ERROR, "reset_system"⟩

/-! ## Values of the Python result dictionaries -/

/-- Values carried in the Python result and prior-info dictionaries. Every
numeric literal in the embedded code is integral, so Python ints and the one
float literal (-1.0) are both embedded through `int`. -/
inductive PyVal
  | str (s : String)
  | int (n : Int)
deriving DecidableEq, Repr

/-- Result and prior-info dictionaries: ordered association lists, as Python
dicts preserve insertion order. -/
abbrev PyDict := List (String × PyVal)

/-! ## FpMockupSystem (fp_mockup_system.py) -/

/-- `FpDatabaseEntry` from fp_mockup_system.py lines 22-28. -/
structure FpDatabaseEntry where
  fingerprint : String
  part_id : String
  batch_id : String
  part_type : String
deriving DecidableEq, Repr

/-- `FINGERPRINT_SIZE` from fp_mockup_system.py line 19. -/
def FINGERPRINT_SIZE : Nat := 0

/-- Python's `str.rjust(width, fill)`: left-pad with the fill character up to
the width. -/
def pyRJust (s : String) (width : Nat) (fill : Char) : String :=
  if s.length ≥ width then s
  else String.mk (List.replicate (width - s.length) fill) ++ s

/-- Python set membership-preserving `set.add`: append the element when it is
not yet present. The Python sets of database entries are embedded as
duplicate-free lists. -/
def setAdd (s : List FpDatabaseEntry) (e : FpDatabaseEntry) : List FpDatabaseEntry :=
  if e ∈ s then s else s ++ [e]

/-- Lookup in the `fp_databases` dict (raises KeyError when absent, embedded
as `none`). -/
def dbLookup (dbs : List (String × List FpDatabaseEntry)) (name : String) :
    Option (List FpDatabaseEntry) :=
  (dbs.find? fun p => p.1 == name).map Prod.snd

/-- Assignment `fp_databases[name] = v`: overwrite in place when the key
exists, append otherwise (Python dict insertion-order semantics). -/
def dbSet (dbs : List (String × List FpDatabaseEntry)) (name : String)
    (v : List FpDatabaseEntry) : List (String × List FpDatabaseEntry) :=
  if dbs.any fun p => p.1 == name then
    dbs.map fun p => if p.1 == name then (name, v) else p
  else dbs ++ [(name, v)]

/-- State of an `FpMockupSystem` instance (fp_mockup_system.py lines 31-40);
the asyncio lock is treated separately in the serialization model. -/
structure FpMockupSystem where
  status : FpStatus
  image_matching : String
  fp_databases : List (String × List FpDatabaseEntry)
deriving DecidableEq, Repr

/-- Python's `list.append` called as an expression: it mutates in place and
the call itself evaluates to `None`, embedded as `none`. -/
def pyListAppendValue (_ : List String) (_ : List String) : Option (List String) :=
  none

/-- Python's `str` applied to an optional list: `str(None)` is `"None"`, and a
list renders as its bracketed repr. -/
def pyStrOfOptionList : Option (List String) → String
  | none => "None"
  | some l => "[" ++ String.intercalate ", " (l.map fun s => "\x27" ++ s ++ "\x27") ++ "]"

/-- `FpMockupSystem.add_part` (fp_mockup_system.py lines 128-211), embedded as
a pure state transformer executed under the task lock; the asyncio sleeps have
no effect on the state and are omitted. Returns the new system state and the
result dictionary. In the duplicate branches the Python code computes
`str(fp_dup_ids.append(id_dup_ids))`: `list.append` returns `None`, so the
field value is the string `"None"`. -/
def add_part (sys : FpMockupSystem) (database_name : String)
    (check_id_duplicates check_fp_duplicates : Bool)
    (part_id batch_id part_type : String) : FpMockupSystem × PyDict :=
  if ¬(sys.status.run_state = RunState.SYSTEM_READY
      ∧ sys.status.error_type = ErrorType.NO_ERROR) then
    (sys, [("PartIDsOfDuplicates", PyVal.str "")])
  else
    let st1 := sys.status.update RunState.ACQUIRING_IMAGE ResultState.RESULT_UNDEFINED
      ErrorType.NO_ERROR "add_part"
    let st2 := st1.update RunState.COMMAND_RUNNING ResultState.RESULT_UNDEFINED
      ErrorType.NO_ERROR "add_part"
    let new_fingerprint := pyRJust part_id (FINGERPRINT_SIZE / 3) '-'
      ++ pyRJust batch_id (FINGERPRINT_SIZE / 3) '-'
      ++ pyRJust part_type (FINGERPRINT_SIZE / 3 + FINGERPRINT_SIZE % 3) '-'
    let allEntries := (sys.fp_databases.map Prod.snd).flatten
    let id_duplicates := allEntries.filter fun e =>
      check_id_duplicates && e.part_id == part_id
    let fp_duplicates := allEntries.filter fun e =>
      check_fp_duplicates && e.fingerprint == new_fingerprint
    if id_duplicates ≠ [] then
      let st3 := st2.update RunState.SYSTEM_ERROR ResultState.RESULT_READY
        ErrorType.ID_DUPLICATE_FOUND ""
      (⟨st3, sys.image_matching, sys.fp_databases⟩,
        [("PartIDsOfDuplicates", PyVal.str (pyStrOfOptionList
          (pyListAppendValue (fp_duplicates.map FpDatabaseEntry.part_id)
            (id_duplicates.map FpDatabaseEntry.part_id))))])
    else if fp_duplicates ≠ [] then
      let st3 := st2.update RunState.SYSTEM_ERROR ResultState.RESULT_READY
        ErrorType.FP_DUPLICATE_FOUND ""
      (⟨st3, sys.image_matching, sys.fp_databases⟩,
        [("PartIDsOfDuplicates", PyVal.str (pyStrOfOptionList
          (pyListAppendValue (fp_duplicates.map FpDatabaseEntry.part_id)
            (id_duplicates.map FpDatabaseEntry.part_id))))])
    else
      let dbs0 := match dbLookup sys.fp_databases database_name with
        | some _ => sys.fp_databases
        | none => dbSet sys.fp_databases database_name []
      let target := (dbLookup dbs0 database_name).getD []
      let dbs1 := dbSet dbs0 database_name
        (setAdd target ⟨new_fingerprint, part_id, batch_id, part_type⟩)
      let st3 := st2.update RunState.SYSTEM_READY ResultState.RESULT_READY
        ErrorType.NO_ERROR ""
      (⟨st3, sys.image_matching, dbs1⟩, [("PartIDsOfDuplicates", PyVal.str "")])

/-- Python's `s.split(";")` guarded by `len(s) != 0` as in trace_part
(fp_mockup_system.py lines 248-259). -/
def splitSemicolonGuarded (s : String) : List String :=
  if s.length ≠ 0 then s.splitOn ";" else []

/-- The candidate filter of trace_part (fp_mockup_system.py lines 280-284):
keep entries unless a requested batch or type restriction rules them out. -/
def traceCandidate (trace_batchwise : Bool) (batch_id_list : List String)
    (trace_typewise : Bool) (part_type_list : List String)
    (e : FpDatabaseEntry) : Bool :=
  !((trace_batchwise && !(batch_id_list.contains e.batch_id))
    || (trace_typewise && !(part_type_list.contains e.part_type)))

/-- The for-else search loop of trace_part (fp_mockup_system.py lines
269-288): visit the reference databases in order, skip missing ones, and in
the first database with a nonempty candidate list pick one entry
pseudo-randomly; `pick` is the oracle standing for `randint`. -/
def findTraceEntry (dbs : List (String × List FpDatabaseEntry))
    (names : List String) (isCand : FpDatabaseEntry → Bool)
    (pick : Nat → Nat) : Option (String × FpDatabaseEntry) :=
  match names with
  | [] => none
  | n :: rest =>
    match dbLookup dbs n with
    | none => findTraceEntry dbs rest isCand pick
    | some db =>
      let candidates := db.filter isCand
      if h : candidates.length ≠ 0 then
        some (n, candidates.get ⟨pick candidates.length % candidates.length,
          Nat.mod_lt _ (Nat.pos_of_ne_zero h)⟩)
      else findTraceEntry dbs rest isCand pick

/-- The no-part-found result dictionary of trace_part (fp_mockup_system.py
lines 296-305). -/
def traceNotFoundRes : PyDict :=
  [("ServiceExecutionResult", PyVal.int 0),
   ("PartID", PyVal.str ""),
   ("BatchID", PyVal.str ""),
   ("PartType", PyVal.str ""),
   ("CurrentConfidenceValue1", PyVal.int 0),
   ("CurrentConfidenceValue2", PyVal.int 0),
   ("AverageConfidenceValue1", PyVal.int 0),
   ("AverageConfidenceValue2", PyVal.int 0)]

/-- `FpMockupSystem.trace_part` (fp_mockup_system.py lines 222-336), embedded
as a pure state transformer executed under the task lock, with `pick` the
oracle for the `randint` call; asyncio sleeps are omitted. -/
def trace_part (sys : FpMockupSystem) (database_name ref_database_names : String)
    (trace_all_databases : Bool) (batch_ids : String) (trace_batchwise : Bool)
    (part_types : String) (trace_typewise : Bool) (pick : Nat → Nat) :
    FpMockupSystem × PyDict :=
  if ¬(sys.status.run_state = RunState.SYSTEM_READY
      ∧ sys.status.error_type = ErrorType.NO_ERROR) then
    (sys, [("PartIDsOfDuplicates", PyVal.str "")])
  else
    let st1 := sys.status.update RunState.ACQUIRING_IMAGE ResultState.RESULT_UNDEFINED
      ErrorType.NO_ERROR "trace_part"
    let st2 := st1.update RunState.COMMAND_RUNNING ResultState.RESULT_UNDEFINED
      ErrorType.NO_ERROR "trace_part"
    let batch_id_list := splitSemicolonGuarded batch_ids
    let part_type_list := splitSemicolonGuarded part_types
    let ref_db_name_list0 := splitSemicolonGuarded ref_database_names
    let ref_db_name_list1 :=
      if ref_db_name_list0.contains database_name then ref_db_name_list0
      else ref_db_name_list0 ++ [database_name]
    let ref_db_name_list :=
      if trace_all_databases then
        ref_db_name_list1 ++ ((sys.fp_databases.map Prod.fst).filter fun n =>
          !(ref_db_name_list1.contains n))
      else ref_db_name_list1
    let isCand := traceCandidate trace_batchwise batch_id_list trace_typewise part_type_list
    match findTraceEntry sys.fp_databases ref_db_name_list isCand pick with
    | none =>
      let st3 := st2.update RunState.SYSTEM_READY ResultState.RESULT_READY
        ErrorType.NO_ERROR ""
      (⟨st3, sys.image_matching, sys.fp_databases⟩, traceNotFoundRes)
    | some (ref_db_name, fp_entry) =>
      let ref_db := (dbLookup sys.fp_databases ref_db_name).getD []
      let dbs1 := dbSet sys.fp_databases ref_db_name (ref_db.erase fp_entry)
      let dbs2 := match dbLookup dbs1 database_name with
        | some db => dbSet dbs1 database_name (setAdd db fp_entry)
        | none => dbSet dbs1 database_name (setAdd [] fp_entry)
      let st3 := st2.update RunState.SYSTEM_READY ResultState.RESULT_READY
        ErrorType.NO_ERROR ""
      (⟨st3, sys.image_matching, dbs2⟩,
        [("ServiceExecutionResult", PyVal.int 0),
         ("PartID", PyVal.str fp_entry.part_id),
         ("BatchID", PyVal.str fp_entry.batch_id),
         ("PartType", PyVal.str fp_entry.part_type),
         ("CurrentConfidenceValue1", PyVal.int 99),
         ("CurrentConfidenceValue2", PyVal.int 100),
         ("AverageConfidenceValue1", PyVal.int 97),
         ("AverageConfidenceValue2", PyVal.int 98)])

/-- A ready, error-free FpMockupSystem with no databases, as after a
successful reset. -/
def sysReady : FpMockupSystem :=
  ⟨⟨RunState.SYSTEM_READY, ResultState.RESULT_UNDEFINED, ErrorType.NO_ERROR, ""⟩,
    "default", []⟩

/-- C7 evaluation: dispatching add_part twice with identical part_id and
check_id_duplicates = true from the ready system makes the second call set
error_kind to ID_DUPLICATE_FOUND and leave the databases unchanged, but the
PartIDsOfDuplicates field is the string "None" (the value of
`str(list.append(...))`, since `list.append` returns `None`) instead of a
listing of the duplicate part IDs such as the repr of `["P1"]`. -/
theorem add_part_duplicate_eval :
    ((add_part (add_part sysReady "DB1" true false "P1" "B1" "T1").1
        "DB1" true false "P1" "B1" "T1").1.status.error_type
      = ErrorType.ID_DUPLICATE_FOUND)
    ∧ ((add_part (add_part sysReady "DB1" true false "P1" "B1" "T1").1
        "DB1" true false "P1" "B1" "T1").1.fp_databases
      = (add_part sysReady "DB1" true false "P1" "B1" "T1").1.fp_databases)
    ∧ ((add_part (add_part sysReady "DB1" true false "P1" "B1" "T1").1
        "DB1" true false "P1" "B1" "T1").2
      = [("PartIDsOfDuplicates", PyVal.str "None")])
    ∧ pyStrOfOptionList (some ["P1"]) ≠ "None" := by
  refine ⟨by decide, by decide, by decide, by decide⟩

/-- C10: when the FpMockupSystem status is not both SYSTEM_READY and
NO_ERROR, add_part and trace_part return immediately with a result holding
only an empty PartIDsOfDuplicates field, and the whole system state — device
status and every fingerprint database — is unchanged. -/
theorem precheck_rejects_without_side_effects (sys : FpMockupSystem)
    (h : ¬(sys.status.run_state = RunState.SYSTEM_READY
      ∧ sys.status.error_type = ErrorType.NO_ERROR))
    (database_name ref_database_names : String)
    (check_id_duplicates check_fp_duplicates : Bool)
    (part_id batch_id part_type : String)
    (trace_all_databases : Bool) (batch_ids : String) (trace_batchwise : Bool)
    (part_types : String) (trace_typewise : Bool) (pick : Nat → Nat) :
    add_part sys database_name check_id_duplicates check_fp_duplicates
        part_id batch_id part_type
      = (sys, [("PartIDsOfDuplicates", PyVal.str "")])
    ∧ trace_part sys database_name ref_database_names trace_all_databases
        batch_ids trace_batchwise part_types trace_typewise pick
      = (sys, [("PartIDsOfDuplicates", PyVal.str "")]) := by
  constructor
  · rw [add_part, if_pos h]
  · rw [trace_part, if_pos h]

/-- Witness for C10 at a concrete errored system: both operations reject and
leave the state untouched. -/
theorem precheck_rejects_witness :
    add_part ⟨⟨RunState.SYSTEM_ERROR, ResultState.RESULT_READY,
        ErrorType.ID_DUPLICATE_FOUND, ""⟩, "default",
        [("DB1", [⟨"fp", "P1", "B1", "T1"⟩])]⟩ "DB2" true false "P2" "B2" "T2"
      = (⟨⟨RunState.SYSTEM_ERROR, ResultState.RESULT_READY,
          ErrorType.ID_DUPLICATE_FOUND, ""⟩, "default",
          [("DB1", [⟨"fp", "P1", "B1", "T1"⟩])]⟩,
        [("PartIDsOfDuplicates", PyVal.str "")])
    ∧ trace_part ⟨⟨RunState.SYSTEM_ERROR, ResultState.RESULT_READY,
        ErrorType.ID_DUPLICATE_FOUND, ""⟩, "default",
        [("DB1", [⟨"fp", "P1", "B1", "T1"⟩])]⟩ "DB2" "" false "" false "" false
        (fun _ => 0)
      = (⟨⟨RunState.SYSTEM_ERROR, ResultState.RESULT_READY,
          ErrorType.ID_DUPLICATE_FOUND, ""⟩, "default",
          [("DB1", [⟨"fp", "P1", "B1", "T1"⟩])]⟩,
        [("PartIDsOfDuplicates", PyVal.str "")]) :=
  precheck_rejects_without_side_effects _ (by decide) "DB2" "" true false
    "P2" "B2" "T2" false "" false "" false (fun _ => 0)

/-! ## Dispatch adapter (fp_opcua_server.py, make_it_service_responding) -/

/-- Outcome of running a backend method: a result dictionary or a raised
exception (carrying its message). -/
inductive BackendOutcome
  | ok (res : PyDict)
  | exc (msg : String)
deriving DecidableEq, Repr

/-- The conservative default PriorInfo built by the async branch when no
`[func]_prior_info` estimator exists (fp_opcua_server.py lines 384-389). -/
def defaultPriorInfo : PyDict :=
  [("ExpectedServiceExecutionDuration", PyVal.int (-1)),
   ("ServiceTriggerResult", PyVal.int 1),
   ("ServiceResultMessage", PyVal.str ""),
   ("ServiceResultCode", PyVal.int 1)]

/-- Steps a service handler performs, in order, before returning. -/
inductive HandlerAction
  | computePriorInfo
  | callBackendInline          -- the sync branch's direct `func(*input_args)` call
  | createBackgroundTask       -- `event_loop.create_task(...)`
  | registerTask               -- `self.tasks_running.add(task)`
  | addDoneCallback            -- `task.add_done_callback(self.tasks_running.discard)`
  | publishDeviceStatus        -- `await self.update_state(await self.fp_system._get_status())`
  | awaitBackgroundResult      -- awaiting the spawned task (never performed)
deriving DecidableEq, Repr

/-- Result of one invocation of the async-branch `service_responding_func`
(fp_opcua_server.py lines 373-406): the immediate reply returned to the
protocol caller, the background computation handed to `create_task` (not yet
executed when the handler returns), and the handler's own action trace. -/
structure AsyncDispatch where
  immediateReply : PyDict
  registeredTask : List PyVal → BackendOutcome
  trace : List HandlerAction

/-- The async branch of `make_it_service_responding` (fp_opcua_server.py
lines 372-406): build PriorInfo from the estimator or the conservative
default, spawn the event-triggering background task over `func`, register it,
publish the device status, and return the PriorInfo as the immediate result
(`immediate_result_datatype(**prior_info)`, embedded as the dictionary
itself). -/
def async_service_responding_func (func : List PyVal → BackendOutcome)
    (func_prior_info : Option (List PyVal → PyDict))
    (input_args : List PyVal) : AsyncDispatch :=
  let prior_info := match func_prior_info with
    | none => defaultPriorInfo
    | some f => f input_args
  { immediateReply := prior_info
    registeredTask := func
    trace := [HandlerAction.computePriorInfo, HandlerAction.createBackgroundTask,
      HandlerAction.registerTask, HandlerAction.addDoneCallback,
      HandlerAction.publishDeviceStatus] }

/-- Python's `dict.update(**other)`: values of existing keys are replaced in
place, new keys are appended in order. -/
def dictUpdate (d upd : PyDict) : PyDict :=
  (d.map fun p => match upd.find? fun q => q.1 == p.1 with
    | some q => (p.1, q.2)
    | none => p)
  ++ upd.filter fun q => !(d.any fun p => p.1 == q.1)

/-- Result of one invocation of the sync-branch `service_responding_func`
(fp_opcua_server.py lines 409-430): the reply returned to the caller and the
merged envelope that line 426 (`prior_info.update(**sync_results)`) computes;
line 428 builds the returned value from `sync_results` alone, leaving the
merged envelope unused. -/
structure SyncDispatch where
  returnedReply : PyDict
  mergedEnvelope : PyDict
  trace : List HandlerAction

/-- The sync branch of `make_it_service_responding` (fp_opcua_server.py lines
408-430): build prior info (empty dict when no estimator), call the bound
backend method inline, merge its results into the prior-info envelope, publish
the device status, and return `immediate_result_datatype(**sync_results)`. -/
def sync_service_responding_func (func : List PyVal → PyDict)
    (func_prior_info : Option (List PyVal → PyDict))
    (input_args : List PyVal) : SyncDispatch :=
  let prior_info := match func_prior_info with
    | none => ([] : PyDict)
    | some f => f input_args
  let sync_results := func input_args
  { returnedReply := sync_results
    mergedEnvelope := dictUpdate prior_info sync_results
    trace := [HandlerAction.computePriorInfo, HandlerAction.callBackendInline,
      HandlerAction.publishDeviceStatus] }

/-! ## Completion notifier (fp_opcua_server.py, make_it_event_triggering) -/

/-- Observable steps of one background execution wrapped by
`event_triggering_func`. -/
inductive TaskAction
  | callBackend
  | setServiceExecutionResult (v : Int)
  | setEventField (name : String) (val : PyVal)
  | skipUnmappedField (name : String)
  | triggerEvent
  | publishDeviceStatus        -- the finally-clause `update_state(_get_status())`
deriving DecidableEq, Repr

/-- Run of one background task: its action trace and the exception escaping
the wrapped coroutine, if any. -/
structure TaskRun where
  actions : List TaskAction
  raised : Option String
deriving DecidableEq, Repr

/-- `event_triggering_func` (fp_opcua_server.py lines 435-454) applied to the
outcome of `await func(*input_args)`; `interfaceFields` tells whether a result
field name is settable on the event generator. When func raises, the except
branch executes `raise e` (the line marked `todo: debug raise`) before the
assignment `event_gen.ServiceExecutionResult = 1` can run, so that assignment
is dead code; the finally clause still republishes the device status and the
exception escapes the coroutine. On success the result fields are copied onto
the event generator (unmapped names are logged and skipped), the event is
triggered, and the finally clause republishes the device status. -/
def event_triggering_func (interfaceFields : String → Bool)
    (outcome : BackendOutcome) : TaskRun :=
  match outcome with
  | BackendOutcome.exc e =>
    { actions := [TaskAction.callBackend, TaskAction.publishDeviceStatus]
      raised := some e }
  | BackendOutcome.ok res =>
    { actions := [TaskAction.callBackend, TaskAction.setServiceExecutionResult 0]
        ++ (res.map fun p =>
          if interfaceFields p.1 then TaskAction.setEventField p.1 p.2
          else TaskAction.skipUnmappedField p.1)
        ++ [TaskAction.triggerEvent, TaskAction.publishDeviceStatus]
      raised := none }

/-- C1: every invocation of the async-branch handler returns the PriorInfo
immediately: the reply is the estimator's fields when an estimator exists and
the conservative default otherwise; it is independent of the bound backend
method (hence never the backend's eventual result); the handler's trace never
awaits the background task, which is registered as the bound method itself. -/
theorem async_dispatch_returns_prior_info
    (func : List PyVal → BackendOutcome)
    (func_prior_info : Option (List PyVal → PyDict))
    (input_args : List PyVal) :
    ((async_service_responding_func func func_prior_info input_args).immediateReply
      = match func_prior_info with
        | none => defaultPriorInfo
        | some f => f input_args)
    ∧ (∀ func2 : List PyVal → BackendOutcome,
        (async_service_responding_func func2 func_prior_info input_args).immediateReply
          = (async_service_responding_func func func_prior_info input_args).immediateReply)
    ∧ HandlerAction.awaitBackgroundResult
        ∉ (async_service_responding_func func func_prior_info input_args).trace
    ∧ (async_service_responding_func func func_prior_info input_args).registeredTask
        = func := by
  refine ⟨rfl, fun func2 => rfl, ?_, rfl⟩
  simp [async_service_responding_func]

/-- C2 evaluation: when the backend method of an async operation raises
during background execution, `event_triggering_func` re-raises the exception
(the `todo: debug raise` line), so no error completion outcome
(`ServiceExecutionResult = 1`) is ever recorded, no completion event is
triggered, and the raw exception escapes the coroutine; only the finally
clause's device-status republish still runs. -/
theorem async_backend_exception_not_reported
    (interfaceFields : String → Bool) (e : String) :
    ((event_triggering_func interfaceFields (BackendOutcome.exc e)).raised = some e)
    ∧ (∀ v : Int, TaskAction.setServiceExecutionResult v
        ∉ (event_triggering_func interfaceFields (BackendOutcome.exc e)).actions)
    ∧ TaskAction.triggerEvent
        ∉ (event_triggering_func interfaceFields (BackendOutcome.exc e)).actions
    ∧ TaskAction.publishDeviceStatus
        ∈ (event_triggering_func interfaceFields (BackendOutcome.exc e)).actions := by
  refine ⟨rfl, ?_, ?_, ?_⟩ <;> simp [event_triggering_func]

/-- C3 evaluation: the sync-branch handler does call the backend inline and
only then returns, but the returned envelope is built from `sync_results`
alone — the merged prior-info envelope computed by
`prior_info.update(**sync_results)` is discarded — so the reply's field set
equals the backend's result field set exactly and is never a strict superset;
at the concrete instance below the estimator field ServiceExecutionStatus is
in the merged envelope yet missing from the reply. -/
theorem sync_dispatch_drops_merged_envelope :
    (∀ (func : List PyVal → PyDict) (func_prior_info : Option (List PyVal → PyDict))
      (input_args : List PyVal),
      (sync_service_responding_func func func_prior_info input_args).returnedReply
        = func input_args
      ∧ (sync_service_responding_func func func_prior_info input_args).returnedReply.map
          Prod.fst = (func input_args).map Prod.fst)
    ∧ ((sync_service_responding_func
          (fun _ => [("PartIDsOfDuplicates", PyVal.str "")])
          (some fun _ => [("ServiceExecutionStatus", PyVal.int 0),
            ("ServiceResultMessage", PyVal.str ""),
            ("ServiceResultCode", PyVal.int 0)])
          []).mergedEnvelope.map Prod.fst
        = ["ServiceExecutionStatus", "ServiceResultMessage", "ServiceResultCode",
           "PartIDsOfDuplicates"])
    ∧ ((sync_service_responding_func
          (fun _ => [("PartIDsOfDuplicates", PyVal.str "")])
          (some fun _ => [("ServiceExecutionStatus", PyVal.int 0),
            ("ServiceResultMessage", PyVal.str ""),
            ("ServiceResultCode", PyVal.int 0)])
          []).returnedReply.map Prod.fst
        = ["PartIDsOfDuplicates"]) := by
  refine ⟨fun func fpi args => ⟨rfl, rfl⟩, by decide, by decide⟩

theorem getLast?_append_pair {α : Type} (l : List α) (a b : α) :
    (l ++ [a, b]).getLast? = some b := by
  rw [show ([a, b] : List α) = [a] ++ [b] from rfl, ← List.append_assoc]
  exact List.getLast?_concat _

/-- C6: for every background execution of an async operation — whether the
backend method returns normally or raises — the wrapped task's last action is
the device-status republish from the finally clause, it happens exactly once,
and in the success case the completion event trigger precedes it. -/
theorem background_task_republishes_status
    (interfaceFields : String → Bool) (outcome : BackendOutcome) :
    ((event_triggering_func interfaceFields outcome).actions.getLast?
      = some TaskAction.publishDeviceStatus)
    ∧ ((event_triggering_func interfaceFields outcome).actions.count
        TaskAction.publishDeviceStatus = 1)
    ∧ (∀ res : PyDict, TaskAction.triggerEvent
        ∈ (event_triggering_func interfaceFields (BackendOutcome.ok res)).actions) := by
  refine ⟨?_, ?_, ?_⟩
  · cases outcome with
    | exc e => rfl
    | ok res =>
      exact getLast?_append_pair
        (TaskAction.callBackend :: TaskAction.setServiceExecutionResult 0
          :: (res.map fun p =>
            if interfaceFields p.1 then TaskAction.setEventField p.1 p.2
            else TaskAction.skipUnmappedField p.1)) _ _
  · cases outcome with
    | exc e => rfl
    | ok res =>
      simp only [event_triggering_func, List.count_append]
      have hz : (res.map fun p =>
          if interfaceFields p.1 then TaskAction.setEventField p.1 p.2
          else TaskAction.skipUnmappedField p.1).count TaskAction.publishDeviceStatus
          = 0 := by
        rw [List.count_eq_zero]
        intro hmem
        obtain ⟨p, hp, he⟩ := List.mem_map.mp hmem
        by_cases hif : interfaceFields p.1 = true <;> simp [hif] at he
      rw [hz]
      rfl
  · intro res
    simp [event_triggering_func]

/-! ## Task registry (fp_opcua_server.py lines 70, 397-400, 475-481) -/

/-- Tasks held in `tasks_running`: background executions of async service
calls (identified by dispatch number) and the periodic state-update task
created by `init_threads`. -/
inductive RegTask
  | asyncCall (id : Nat)
  | statePublisher
deriving DecidableEq, Repr

/-- State of the `tasks_running` registry together with the dispatch and
completion history. -/
structure RegistryState where
  tasks_running : Finset RegTask
  dispatched : Nat
  completedIds : Finset Nat
  publisherStarted : Bool
deriving DecidableEq

/-- Registry state of a fresh FpOpcuaServer (fp_opcua_server.py line 70). -/
def initialRegistry : RegistryState :=
  ⟨∅, 0, ∅, false⟩

/-- Transitions of the registry. `dispatchAsync` is lines 398-400: the handler
creates the task and adds its handle before returning. `completeAsync` is the
`task.add_done_callback(self.tasks_running.discard)` firing when the
background execution finishes (success or failure). `startPublisher` is
`init_threads` (lines 475-481) adding the `periodic_state_update` task, which
loops forever and therefore has no completion transition. -/
inductive RegistryStep : RegistryState → RegistryState → Prop
  | dispatchAsync (s : RegistryState) :
      RegistryStep s ⟨insert (RegTask.asyncCall s.dispatched) s.tasks_running,
        s.dispatched + 1, s.completedIds, s.publisherStarted⟩
  | completeAsync (s : RegistryState) (n : Nat)
      (h : RegTask.asyncCall n ∈ s.tasks_running) :
      RegistryStep s ⟨s.tasks_running.erase (RegTask.asyncCall n),
        s.dispatched, insert n s.completedIds, s.publisherStarted⟩
  | startPublisher (s : RegistryState) (h : s.publisherStarted = false) :
      RegistryStep s ⟨insert RegTask.statePublisher s.tasks_running,
        s.dispatched, s.completedIds, true⟩

/-- Registry states reachable from a fresh server. -/
inductive RegistryReachable : RegistryState → Prop
  | init : RegistryReachable initialRegistry
  | step {s u : RegistryState} :
      RegistryReachable s → RegistryStep s u → RegistryReachable u

/-- Invariant of the registry: an async handle is present exactly when it was
dispatched and has not completed; completed ids were dispatched; the publisher
handle is present exactly when init_threads ran. -/
def RegistryInv (s : RegistryState) : Prop :=
  (∀ n, RegTask.asyncCall n ∈ s.tasks_running ↔ n < s.dispatched ∧ n ∉ s.completedIds)
  ∧ (∀ n ∈ s.completedIds, n < s.dispatched)
  ∧ (RegTask.statePublisher ∈ s.tasks_running ↔ s.publisherStarted = true)

theorem registry_inv_step (s u : RegistryState) (hs : RegistryStep s u)
    (ih : RegistryInv s) : RegistryInv u := by
  obtain ⟨ih1, ih2, ih3⟩ := ih
  cases hs with
  | dispatchAsync =>
    refine ⟨?_, ?_, ?_⟩
    · intro n
      simp only [Finset.mem_insert, RegTask.asyncCall.injEq, ih1]
      constructor
      · rintro (rfl | ⟨hlt, hnc⟩)
        · exact ⟨Nat.lt_succ_self _, fun hc => absurd (ih2 _ hc) (Nat.lt_irrefl _)⟩
        · exact ⟨Nat.lt_succ_of_lt hlt, hnc⟩
      · rintro ⟨hlt, hnc⟩
        rcases Nat.lt_succ_iff_lt_or_eq.mp hlt with hlt2 | rfl
        · exact Or.inr ⟨hlt2, hnc⟩
        · exact Or.inl rfl
    · exact fun n hn => Nat.lt_succ_of_lt (ih2 n hn)
    · simpa using ih3
  | completeAsync n hmem =>
    refine ⟨?_, ?_, ?_⟩
    · intro m
      simp only [Finset.mem_erase, ne_eq, RegTask.asyncCall.injEq, ih1,
        Finset.mem_insert]
      constructor
      · rintro ⟨hne, hlt, hnc⟩
        exact ⟨hlt, fun hc => hc.elim hne hnc⟩
      · rintro ⟨hlt, hnc⟩
        exact ⟨fun he => hnc (Or.inl he), hlt, fun hc => hnc (Or.inr hc)⟩
    · intro m hm
      rcases Finset.mem_insert.mp hm with rfl | hm2
      · exact ((ih1 m).mp hmem).1
      · exact ih2 m hm2
    · simpa using ih3
  | startPublisher hps =>
    refine ⟨?_, ih2, ?_⟩
    · intro n
      simpa using ih1 n
    · simp

theorem registry_invariant (s : RegistryState) (h : RegistryReachable s) :
    RegistryInv s := by
  induction h with
  | init =>
    refine ⟨?_, ?_, ?_⟩ <;> simp [initialRegistry, RegistryInv]
  | step hr hs ih => exact registry_inv_step _ _ hs ih

theorem registry_async_part_card (s : RegistryState) (h : RegistryReachable s) :
    (s.tasks_running.filter fun t => t ≠ RegTask.statePublisher).card
      = s.dispatched - s.completedIds.card := by
  obtain ⟨ih1, ih2, _⟩ := registry_invariant s h
  have himg : (s.tasks_running.filter fun t => t ≠ RegTask.statePublisher)
      = ((Finset.range s.dispatched) \ s.completedIds).image RegTask.asyncCall := by
    ext t
    cases t with
    | asyncCall n =>
      simp only [Finset.mem_filter, Finset.mem_image, Finset.mem_sdiff, Finset.mem_range,
        RegTask.asyncCall.injEq, ih1]
      constructor
      · rintro ⟨⟨hlt, hnc⟩, _⟩
        exact ⟨n, ⟨hlt, hnc⟩, rfl⟩
      · rintro ⟨m, ⟨hlt, hnc⟩, rfl⟩
        exact ⟨⟨hlt, hnc⟩, by simp⟩
    | statePublisher =>
      simp
  have hinj : Function.Injective RegTask.asyncCall := by
    intro a b hab
    cases hab
    rfl
  rw [himg, Finset.card_image_of_injective _ hinj,
    Finset.card_sdiff (fun n hn => Finset.mem_range.mpr (ih2 n hn)), Finset.card_range]

/-- Registry state right after `init_threads` registered the periodic
state-update task, before any async call: tasks_running already holds one
handle. -/
def regAfterPublisherStart : RegistryState :=
  ⟨{RegTask.statePublisher}, 0, ∅, true⟩

/-- C4 counterexample: the reachable state right after `init_threads` has one
handle in tasks_running (the periodic state-update task) while zero async
calls have been dispatched and zero completed, so the registry's size exceeds
"dispatched minus completed" and is nonzero although all (zero) dispatched
async calls have completed. -/
theorem task_registry_size_counterexample :
    RegistryReachable regAfterPublisherStart
    ∧ regAfterPublisherStart.dispatched = 0
    ∧ regAfterPublisherStart.completedIds.card = 0
    ∧ ¬(regAfterPublisherStart.tasks_running.card
        ≤ regAfterPublisherStart.dispatched - regAfterPublisherStart.completedIds.card)
    ∧ regAfterPublisherStart.tasks_running.card ≠ 0 := by
  refine ⟨?_, rfl, rfl, by decide, by decide⟩
  exact RegistryReachable.step RegistryReachable.init
    (RegistryStep.startPublisher initialRegistry rfl)

/-- C4 amended: every async task handle is added at dispatch (before the
handler returns) and removed exactly once at completion, never before; the
async portion of tasks_running has size exactly "dispatched minus completed";
the whole registry — which additionally holds the periodic state-update task
registered at startup — never exceeds that number plus one; and the async
portion empties once all dispatched async calls complete. -/
theorem task_registry_amended (s : RegistryState) (h : RegistryReachable s) :
    (∀ n, RegTask.asyncCall n ∈ s.tasks_running ↔ n < s.dispatched ∧ n ∉ s.completedIds)
    ∧ (s.tasks_running.filter fun t => t ≠ RegTask.statePublisher).card
        = s.dispatched - s.completedIds.card
    ∧ s.tasks_running.card ≤ (s.dispatched - s.completedIds.card) + 1
    ∧ (s.completedIds.card = s.dispatched →
        s.tasks_running.filter (fun t => t ≠ RegTask.statePublisher) = ∅) := by
  have hcard := registry_async_part_card s h
  refine ⟨(registry_invariant s h).1, hcard, ?_, ?_⟩
  · have hsplit := Finset.filter_card_add_filter_neg_card_eq_card
      (s := s.tasks_running) (p := fun t => t ≠ RegTask.statePublisher)
    have hpub : (s.tasks_running.filter fun t => ¬(t ≠ RegTask.statePublisher)).card ≤ 1 := by
      have hsub : (s.tasks_running.filter fun t => ¬(t ≠ RegTask.statePublisher))
          ⊆ {RegTask.statePublisher} := by
        intro t ht
        obtain ⟨_, ht2⟩ := Finset.mem_filter.mp ht
        simp only [not_not] at ht2
        simp [ht2]
      simpa using Finset.card_le_card hsub
    omega
  · intro hall
    rw [← Finset.card_eq_zero, hcard, hall, Nat.sub_self]

/-- Registry state after one async dispatch from a fresh server. -/
def regAfterDispatch : RegistryState :=
  ⟨{RegTask.asyncCall 0}, 1, ∅, false⟩

theorem regAfterDispatch_reachable : RegistryReachable regAfterDispatch :=
  RegistryReachable.step RegistryReachable.init
    (RegistryStep.dispatchAsync initialRegistry)

/-- Witness for C4 amended at the state after one async dispatch: the handle
is registered, the async portion counts one, the total respects the bound. -/
theorem task_registry_amended_witness :
    (RegTask.asyncCall 0 ∈ regAfterDispatch.tasks_running)
    ∧ (regAfterDispatch.tasks_running.filter fun t => t ≠ RegTask.statePublisher).card
        = regAfterDispatch.dispatched - regAfterDispatch.completedIds.card
    ∧ regAfterDispatch.tasks_running.card
        ≤ (regAfterDispatch.dispatched - regAfterDispatch.completedIds.card) + 1 := by
  obtain ⟨h1, h2, h3, _⟩ := task_registry_amended regAfterDispatch regAfterDispatch_reachable
  exact ⟨(h1 0).mpr (by decide), h2, h3⟩

/-! ## Interface linking (fp_opcua_server.py, link_services, lines 239-367) -/

/-- Link-time facts about one declared service node, as observed by
`link_services`: whether `getattr(self.fp_system, camel_to_snake(name))`
succeeds, whether the per-service ServiceFinishedEventType or
ServiceExecutionSyncResultDataType child exists, whether the corresponding
result data type is among `loaded_type_definitions`, and whether
`server.link_method` succeeds. -/
structure ServiceDecl where
  name : String
  hasBackendMethod : Bool
  hasEventType : Bool
  hasSyncResultType : Bool
  asyncTypeLoaded : Bool
  syncTypeLoaded : Bool
  linkOk : Bool
deriving DecidableEq, Repr

/-- `link_services` (fp_opcua_server.py lines 239-367) as a fold over the
declared service nodes, returning the names that end up linked, in order.
The branches mirror the source: 'register'/'unregister' are skipped (line
284); a missing backend method logs and continues (lines 289-294); the event
type is probed first and decides async (lines 301-317), falling back to the
sync result type, with neither shape logging and continuing; a result type
missing from the loaded definitions logs and continues (lines 327-348); a
`link_method` failure logs and RETURNS, abandoning all remaining services
(lines 358-363). -/
def link_services : List ServiceDecl → List String
  | [] => []
  | s :: rest =>
    if s.name = "register" ∨ s.name = "unregister" then link_services rest
    else if !s.hasBackendMethod then link_services rest
    else if s.hasEventType then
      if !s.asyncTypeLoaded then link_services rest
      else if s.linkOk then s.name :: link_services rest
      else []
    else if s.hasSyncResultType then
      if !s.syncTypeLoaded then link_services rest
      else if s.linkOk then s.name :: link_services rest
      else []
    else link_services rest

/-- A declared service that `link_services` can resolve: not architecture-
reserved, backend method present, and a result shape whose data type is
loaded (event type first, sync result type as fallback). -/
def resolvableService (s : ServiceDecl) : Bool :=
  if s.name = "register" ∨ s.name = "unregister" then false
  else if !s.hasBackendMethod then false
  else if s.hasEventType then s.asyncTypeLoaded
  else if s.hasSyncResultType then s.syncTypeLoaded
  else false

/-- Declared service whose backend method is missing. -/
def svcMissingMethod : ServiceDecl :=
  ⟨"AddPart", false, true, false, true, true, true⟩

/-- Declared service whose `link_method` call fails. -/
def svcLinkFails : ServiceDecl :=
  ⟨"TracePart", true, true, false, true, true, false⟩

/-- Fully resolvable, linkable declared service. -/
def svcResolvable : ServiceDecl :=
  ⟨"ResetSystem", true, true, false, true, true, true⟩

/-- C5 counterexample: in a declared set with a missing-method service, a
service whose `link_method` call fails, and a later resolvable service,
linking stops at the failed binding and the resolvable service is NOT linked
— a single failed binding aborts the linking of the remaining services, so it
is false that every other resolvable service still gets linked. -/
theorem link_services_abort_counterexample :
    svcMissingMethod.hasBackendMethod = false
    ∧ resolvableService svcResolvable = true
    ∧ link_services [svcMissingMethod, svcLinkFails, svcResolvable] = []
    ∧ svcResolvable.name ∉ link_services [svcMissingMethod, svcLinkFails, svcResolvable] := by
  refine ⟨rfl, rfl, by decide, by decide⟩

/-- C5 amended: missing-method and unresolvable-shape (and unloaded-type)
failures are isolated per service — the service is logged and excluded while
linking continues — so in the absence of protocol-layer `link_method`
failures every resolvable declared service gets linked, in order; a
`link_method` failure, however, aborts linking of all remaining services. -/
theorem link_services_isolates_declared_failures (l : List ServiceDecl)
    (h : ∀ s ∈ l, s.linkOk = true) :
    link_services l = (l.filter resolvableService).map ServiceDecl.name := by
  induction l with
  | nil => rfl
  | cons s rest ih =>
    have hs := h s (by simp)
    have hrest := ih fun x hx => h x (by simp [hx])
    by_cases h1 : s.name = "register" ∨ s.name = "unregister"
    · simp [link_services, resolvableService, h1, hrest]
    · by_cases h2 : s.hasBackendMethod = true
      · by_cases h3 : s.hasEventType = true
        · by_cases h4 : s.asyncTypeLoaded = true
          · simp [link_services, resolvableService, h1, h2, h3, h4, hs, hrest]
          · simp only [Bool.not_eq_true] at h4
            simp [link_services, resolvableService, h1, h2, h3, h4, hrest]
        · simp only [Bool.not_eq_true] at h3
          by_cases h5 : s.hasSyncResultType = true
          · by_cases h6 : s.syncTypeLoaded = true
            · simp [link_services, resolvableService, h1, h2, h3, h5, h6, hs, hrest]
            · simp only [Bool.not_eq_true] at h6
              simp [link_services, resolvableService, h1, h2, h3, h5, h6, hrest]
          · simp only [Bool.not_eq_true] at h5
            simp [link_services, resolvableService, h1, h2, h3, h5, hrest]
      · simp only [Bool.not_eq_true] at h2
        simp [link_services, resolvableService, h1, h2, hrest]

/-- Witness for C5 amended: with all `link_method` calls succeeding, the
missing-method service is skipped and the resolvable one is linked. -/
theorem link_services_isolates_witness :
    link_services [svcMissingMethod, svcResolvable]
      = (([svcMissingMethod, svcResolvable].filter resolvableService).map
          ServiceDecl.name)
    ∧ link_services [svcMissingMethod, svcResolvable] = ["ResetSystem"] :=
  ⟨link_services_isolates_declared_failures [svcMissingMethod, svcResolvable]
      (by decide),
    by decide⟩

/-! ## Backend serialization lock (fp_mockup_system.py lines 39, 56, 95, 130, 224)

The four mutating operations — reset_system, set_image_matching_type,
add_part and trace_part — each wrap their whole body in
`async with self.task_lock`. Under asyncio's cooperative scheduler a task
acquires the `asyncio.Lock` only when it is free and holds it across every
await point of the body, releasing it on exit. The model below has one
logical task per mutating call; an `inCritical k` phase counts the internal
state transitions executed inside the body. -/

/-- Phase of one mutating call's logical task. -/
inductive TaskPhase
  | notStarted
  | waitingForLock
  | inCritical (stepsDone : Nat)
  | finished
deriving DecidableEq, Repr

/-- State of one backend instance's serialization: each task's phase and the
current owner of `task_lock`. -/
structure LockSystem (n : Nat) where
  phase : Fin n → TaskPhase
  lockHolder : Option (Fin n)

/-- Cooperative transitions: a task starts, waits, acquires the free lock,
performs internal state transitions of the body, and releases on exit. -/
inductive LockStep (n : Nat) : Fin n → LockSystem n → LockSystem n → Prop
  | start (s : LockSystem n) (t : Fin n) (h : s.phase t = TaskPhase.notStarted) :
      LockStep n t s ⟨Function.update s.phase t TaskPhase.waitingForLock, s.lockHolder⟩
  | acquire (s : LockSystem n) (t : Fin n)
      (hw : s.phase t = TaskPhase.waitingForLock) (hfree : s.lockHolder = none) :
      LockStep n t s ⟨Function.update s.phase t (TaskPhase.inCritical 0), some t⟩
  | criticalStep (s : LockSystem n) (t : Fin n) (k : Nat)
      (h : s.phase t = TaskPhase.inCritical k) :
      LockStep n t s ⟨Function.update s.phase t (TaskPhase.inCritical (k + 1)), s.lockHolder⟩
  | release (s : LockSystem n) (t : Fin n) (k : Nat)
      (h : s.phase t = TaskPhase.inCritical k) :
      LockStep n t s ⟨Function.update s.phase t TaskPhase.finished, none⟩

/-- States reachable from the all-idle, lock-free initial state. -/
inductive LockReachable (n : Nat) : LockSystem n → Prop
  | init : LockReachable n ⟨fun _ => TaskPhase.notStarted, none⟩
  | step {s u : LockSystem n} {t : Fin n} :
      LockReachable n s → LockStep n t s u → LockReachable n u

theorem lock_inv_step (n : Nat) (t : Fin n) (s u : LockSystem n)
    (hs : LockStep n t s u)
    (ih : ∀ x k, s.phase x = TaskPhase.inCritical k → s.lockHolder = some x) :
    ∀ x k, u.phase x = TaskPhase.inCritical k → u.lockHolder = some x := by
  cases hs with
  | start s t h =>
    intro x k hx
    have hx2 : Function.update s.phase t TaskPhase.waitingForLock x
        = TaskPhase.inCritical k := hx
    show s.lockHolder = some x
    rw [Function.update_apply] at hx2
    by_cases hxt : x = t
    · rw [if_pos hxt] at hx2
      exact absurd hx2 (by simp)
    · rw [if_neg hxt] at hx2
      exact ih x k hx2
  | acquire s t hw hfree =>
    intro x k hx
    have hx2 : Function.update s.phase t (TaskPhase.inCritical 0) x
        = TaskPhase.inCritical k := hx
    show some t = some x
    rw [Function.update_apply] at hx2
    by_cases hxt : x = t
    · rw [hxt]
    · rw [if_neg hxt] at hx2
      exact absurd (ih x k hx2) (by simp [hfree])
  | criticalStep s t k0 h =>
    intro x k hx
    have hx2 : Function.update s.phase t (TaskPhase.inCritical (k0 + 1)) x
        = TaskPhase.inCritical k := hx
    show s.lockHolder = some x
    rw [Function.update_apply] at hx2
    by_cases hxt : x = t
    · rw [hxt]
      exact ih t k0 h
    · rw [if_neg hxt] at hx2
      exact ih x k hx2
  | release s t k0 h =>
    intro x k hx
    have hx2 : Function.update s.phase t TaskPhase.finished x
        = TaskPhase.inCritical k := hx
    show none = some x
    rw [Function.update_apply] at hx2
    by_cases hxt : x = t
    · rw [if_pos hxt] at hx2
      exact absurd hx2 (by simp)
    · rw [if_neg hxt] at hx2
      have hxh := ih x k hx2
      have hth := ih t k0 h
      rw [hth] at hxh
      exact absurd (Option.some.inj hxh).symm hxt

/-- C9: in every reachable state of one backend instance, a task inside the
critical section of a mutating operation is the lock holder, hence at most
one mutating operation executes its critical section at any time and two
concurrent mutating calls never interleave their internal state transitions. -/
theorem mutating_ops_serialized (n : Nat) (s : LockSystem n)
    (h : LockReachable n s) :
    (∀ t k, s.phase t = TaskPhase.inCritical k → s.lockHolder = some t)
    ∧ (∀ t1 k1 t2 k2, s.phase t1 = TaskPhase.inCritical k1 →
        s.phase t2 = TaskPhase.inCritical k2 → t1 = t2) := by
  have hinv : ∀ t k, s.phase t = TaskPhase.inCritical k → s.lockHolder = some t := by
    induction h with
    | init => intro t k hx; exact absurd hx (by simp)
    | step hr hs ih => exact lock_inv_step _ _ _ _ hs ih
  refine ⟨hinv, fun t1 k1 t2 k2 h1 h2 => ?_⟩
  have e1 := hinv t1 k1 h1
  have e2 := hinv t2 k2 h2
  rw [e1] at e2
  exact Option.some.inj e2

/-- Demo state with two tasks where task 0 holds the lock inside its critical
section and task 1 has not started. -/
def lockDemoState : LockSystem 2 :=
  ⟨Function.update (Function.update (fun _ => TaskPhase.notStarted) 0
      TaskPhase.waitingForLock) 0 (TaskPhase.inCritical 0), some 0⟩

theorem lockDemoState_reachable : LockReachable 2 lockDemoState :=
  LockReachable.step
    (LockReachable.step (LockReachable.init)
      (LockStep.start ⟨fun _ => TaskPhase.notStarted, none⟩ 0 rfl))
    (LockStep.acquire _ 0 (by simp) rfl)

/-- Witness for C9: applying the serialization theorem at the concrete
reachable two-task state where task 0 is in its critical section. -/
theorem mutating_ops_serialized_witness :
    LockReachable 2 lockDemoState ∧ lockDemoState.lockHolder = some 0 :=
  ⟨lockDemoState_reachable,
    (mutating_ops_serialized 2 lockDemoState lockDemoState_reachable).1 0 0
      (by simp [lockDemoState])⟩
